import Mathlib

/-!
Shallow embedding of the xk6-milvus core: the column encoder, the insert
coordinator with its metric emission, the query-result decoder and the
recall evaluator. Go float64/float32 values are modelled as rationals,
int64 values as integers. Fallible paths return Option/Except.
-/

namespace Milvus

/-- A decoded field value carried in a search hit or a raw result column. -/
inductive FieldVal where
  | intV (i : Int)
  | strV (s : String)
  | numV (q : ℚ)
  | boolV (b : Bool)
deriving DecidableEq, Repr

/-- SearchResult from types.go: entity id, similarity score, and the
optional output fields, modelled as an association list. -/
structure SearchResult where
  id : Int
  score : ℚ
  fields : List (String × FieldVal)
deriving DecidableEq, Repr

/-! ## Recall evaluator (search.go, calculateRecall) -/

/-- Recall of one chunk of hits against one ground-truth id list: the
number of chunk positions whose id belongs to the ground-truth set,
divided by the length of the ground-truth list. Mirrors the inner loop
of calculateRecall for a single query. -/
def queryRecall (chunk : List SearchResult) (gt : List Int) : ℚ :=
  ((chunk.countP fun h => decide (h.id ∈ gt) : Nat) : ℚ) / ((gt.length : Nat) : ℚ)

/-- The main loop of calculateRecall: walks the ground-truth lists,
skipping empty ones without advancing the running result index, and for
each non-empty one scores the chunk of topK hits starting at the running
index, then advances the index by topK. Returns the recall sum and the
count of valid queries. -/
def recallLoop (results : List SearchResult) (topK : Nat) :
    List (List Int) → Nat → ℚ × Nat
  | [], _ => (0, 0)
  | g :: rest, resultIdx =>
    if g.isEmpty then
      recallLoop results topK rest resultIdx
    else
      let chunk := (results.drop resultIdx).take topK
      let q := queryRecall chunk g
      let r := recallLoop results topK rest (resultIdx + topK)
      (q + r.1, r.2 + 1)

/-- calculateRecall from search.go: early return 0 on empty results,
empty ground truth or zero queries; otherwise the average of per-query
recall over the queries with non-empty ground truth, the loop iterating
over at most numQueries ground-truth entries. -/
def calculateRecall (results : List SearchResult) (groundTruth : List (List Int))
    (topK numQueries : Nat) : ℚ :=
  if results.isEmpty ∨ groundTruth.isEmpty ∨ numQueries = 0 then 0
  else if (recallLoop results topK (groundTruth.take numQueries) 0).2 = 0 then 0
  else (recallLoop results topK (groundTruth.take numQueries) 0).1 /
    (((recallLoop results topK (groundTruth.take numQueries) 0).2 : Nat) : ℚ)

/-- Hit list for the worked spec example: ids 1,2,9,9,9 then 4,9,9,9,9. -/
def exampleHits : List SearchResult :=
  [⟨1, 0, []⟩, ⟨2, 0, []⟩, ⟨9, 0, []⟩, ⟨9, 0, []⟩, ⟨9, 0, []⟩,
   ⟨4, 0, []⟩, ⟨9, 0, []⟩, ⟨9, 0, []⟩, ⟨9, 0, []⟩, ⟨9, 0, []⟩]

/-- Two hits with the same id 1, for the duplicate-id analysis. -/
def dupHits : List SearchResult := [⟨1, 0, []⟩, ⟨1, 0, []⟩]

/-- Two hits with distinct ids 1 and 2, for the empty-ground-truth
chunk-attribution analysis. -/
def twoHits : List SearchResult := [⟨1, 0, []⟩, ⟨2, 0, []⟩]

/-! ## Column encoder (client implementation, Insert) -/

/-- A loosely typed element of a JavaScript array that reached the Go
side as an interface value: the shapes the encoder dispatches on. -/
inductive AnyValue where
  | str (s : String)
  | num (q : ℚ)
  | boolean (b : Bool)
  | arr (xs : List AnyValue)

/-- Projection used where the Go code asserts val.(string). -/
def AnyValue.asString : AnyValue → String
  | .str s => s
  | _ => ""

/-- Projection used where the Go code asserts val.(float64). -/
def AnyValue.asNum : AnyValue → ℚ
  | .num q => q
  | _ => 0

/-- Projection used where the Go code asserts val.(bool). -/
def AnyValue.asBool : AnyValue → Bool
  | .boolean b => b
  | _ => false

/-- Projection used where the Go code asserts vec.([]interface\x7b\x7d). -/
def AnyValue.asArr : AnyValue → List AnyValue
  | .arr xs => xs
  | _ => []

/-- The runtime shapes of a field value accepted by Insert. -/
inductive FieldValue where
  | floatVectors (rows : List (List ℚ))
  | int64s (xs : List Int)
  | int32s (xs : List Int)
  | float32s (xs : List ℚ)
  | float64s (xs : List ℚ)
  | strings (xs : List String)
  | bools (xs : List Bool)
  | anys (xs : List AnyValue)

/-- The typed data of an encoded column. -/
inductive ColumnData where
  | int64Col (vals : List Int)
  | int32Col (vals : List Int)
  | floatCol (vals : List ℚ)
  | doubleCol (vals : List ℚ)
  | varcharCol (vals : List String)
  | boolCol (vals : List Bool)
  | floatVectorCol (dim : Nat) (vals : List (List ℚ))
deriving DecidableEq, Repr

/-- An encoded column: a field name bound to typed data. -/
structure Column where
  name : String
  data : ColumnData
deriving DecidableEq, Repr

/-- Column length, mirroring Len() of the client library columns. -/
def ColumnData.len : ColumnData → Nat
  | .int64Col vals => vals.length
  | .int32Col vals => vals.length
  | .floatCol vals => vals.length
  | .doubleCol vals => vals.length
  | .varcharCol vals => vals.length
  | .boolCol vals => vals.length
  | .floatVectorCol _ vals => vals.length

/-- Length of a column. -/
def Column.len (c : Column) : Nat := c.data.len

/-- Whether the rows of a vector column all match its declared dimension;
trivially true for scalar columns. -/
def ColumnData.vectorDimsConsistent : ColumnData → Prop
  | .floatVectorCol dim vals => ∀ v ∈ vals, v.length = dim
  | _ => True

/-- Encode one field of the batch record into a column, mirroring the
type switch inside Insert. Returns none when the field is skipped. An
empty float-vector sequence and an empty generic sequence are skipped;
every other shape always yields a column, even when empty. For vector
data the dimension is the length of the first row and the rows are
passed through without any consistency check. Numeric generic sequences
become a double column exactly when the field is named rating, and a
single-precision column otherwise. -/
def encodeField (name : String) (v : FieldValue) : Option Column :=
  match v with
  | .floatVectors rows =>
    match rows with
    | [] => none
    | r :: _ => some ⟨name, .floatVectorCol r.length rows⟩
  | .int64s xs => some ⟨name, .int64Col xs⟩
  | .int32s xs => some ⟨name, .int32Col xs⟩
  | .float32s xs => some ⟨name, .floatCol xs⟩
  | .float64s xs => some ⟨name, .doubleCol xs⟩
  | .strings xs => some ⟨name, .varcharCol xs⟩
  | .bools xs => some ⟨name, .boolCol xs⟩
  | .anys xs =>
    match xs with
    | [] => none
    | a :: _ =>
      match a with
      | .str _ => some ⟨name, .varcharCol (xs.map AnyValue.asString)⟩
      | .num _ =>
        if name = "rating" then some ⟨name, .doubleCol (xs.map AnyValue.asNum)⟩
        else some ⟨name, .floatCol (xs.map AnyValue.asNum)⟩
      | .boolean _ => some ⟨name, .boolCol (xs.map AnyValue.asBool)⟩
      | .arr first =>
        some ⟨name, .floatVectorCol first.length
          (xs.map fun a => (AnyValue.asArr a).map AnyValue.asNum)⟩

/-- Errors surfaced by the encoding stage of Insert. -/
inductive EncodeError where
  | noValidColumns
deriving DecidableEq, Repr

/-- Encode a whole batch record: one optional column per field in order,
then the no-valid-columns check of Insert. -/
def encodeRecord (fields : List (String × FieldValue)) :
    Except EncodeError (List Column) :=
  let columns := fields.filterMap fun p => encodeField p.1 p.2
  if columns = [] then .error .noValidColumns else .ok columns

/-! ## Insert coordinator (client implementation, Insert) -/

/-- Errors surfaced by a full Insert call. -/
inductive InsertError where
  | noValidColumns
  | storeError (msg : String)
  | countMismatch (expected got : Int)
deriving DecidableEq, Repr

/-- A metric sample pushed to the metrics sink, reduced to the parts the
specification speaks about: the metric name, the value and the status
tag. -/
structure MetricSample where
  metric : String
  value : ℚ
  status : String
deriving DecidableEq, Repr

/-- Row count of a column set: the maximum column length, computed by
the running-maximum loop of Insert. -/
def rowCount (columns : List Column) : Nat :=
  columns.foldl (fun acc c => if c.len > acc then c.len else acc) 0

/-- The submission stage of Insert, from the no-valid-columns check to
the returned ids, with the metric samples it emits. The store reply is
either an opaque error or the acknowledged insert count. Mirrors the
source order: on store success the success-tagged samples are emitted
first and the insert-count check runs only afterwards. -/
def insertSubmit (columns : List Column) (store : Except String Int)
    (durationMs : ℚ) : Except InsertError (List Int) × List MetricSample :=
  if columns = [] then (.error .noValidColumns, [])
  else
    match store with
    | .error e =>
      (.error (.storeError e),
       [⟨"milvus_errors", 1, "error"⟩,
        ⟨"milvus_req_duration", durationMs, "error"⟩])
    | .ok insertCount =>
      let samples : List MetricSample :=
        [⟨"milvus_reqs", 1, "success"⟩,
         ⟨"milvus_req_duration", durationMs, "success"⟩,
         ⟨"milvus_vectors", ((rowCount columns : Nat) : ℚ), "success"⟩,
         ⟨"milvus_errors", 0, "success"⟩]
      if insertCount ≠ ((rowCount columns : Nat) : Int) then
        (.error (.countMismatch ((rowCount columns : Nat) : Int) insertCount), samples)
      else
        (.ok ((List.range (rowCount columns)).map fun i => (i : Int)), samples)

/-- A concrete two-row column set used in witnesses. -/
def twoRowColumns : List Column := [⟨"v", .int64Col [7, 8]⟩]

/-! ## Query result decoder (search.go, Search) -/

/-- A raw per-field result column as the store hands it back: Get(i)
yields the value at index i or fails, modelled as an Option entry. -/
structure RawColumn where
  name : String
  values : List (Option FieldVal)
deriving DecidableEq, Repr

/-- One raw per-query search result: the hit count, the ids column
(an entry is none when the id lookup at that index fails), the scores
and the named field columns. -/
structure RawResult where
  resultCount : Nat
  ids : List (Option Int)
  scores : List ℚ
  columns : List RawColumn
deriving DecidableEq, Repr

/-- GetColumn of the client library: the first column with the given
name, if any. -/
def RawResult.getColumn (r : RawResult) (f : String) : Option RawColumn :=
  r.columns.find? fun c => c.name == f

/-- Decode one hit at rank i of one raw query result, mirroring the
inner loop of Search: the id defaults to 0 when the id lookup fails, the
score is read from the scores column, and each requested output field
other than id is copied when its column is present and its lookup at i
succeeds, and silently omitted otherwise. -/
def decodeHit (outputFields : List String) (r : RawResult) (i : Nat) : SearchResult :=
  { id := (r.ids.getD i none).getD 0
    score := r.scores.getD i 0
    fields := outputFields.filterMap fun f =>
      if f = "id" then none
      else
        match r.getColumn f with
        | none => none
        | some col => (col.values.getD i none).map fun v => (f, v) }

/-- Decode all hits of one raw query result in rank order. -/
def decodeQuery (outputFields : List String) (r : RawResult) : List SearchResult :=
  (List.range r.resultCount).map (decodeHit outputFields r)

/-- Decode a whole search reply: hits of all queries concatenated in
submission order, each query in rank order, as the nested append loop of
Search builds them. -/
def decodeResults (outputFields : List String) (rs : List RawResult) : List SearchResult :=
  rs.flatMap (decodeQuery outputFields)

/-- A concrete raw result with one hit whose id resolves to 42. -/
def exampleRaw : RawResult :=
  ⟨1, [some 42], [0], [⟨"title", [some (.strV "t")]⟩]⟩

/-- A concrete raw result with one hit whose id lookup fails. -/
def idErrRaw : RawResult :=
  ⟨1, [none], [0], [⟨"title", [some (.strV "t")]⟩]⟩

end Milvus

/-- Claim C8: calculateRecall with k = 5, numQueries = 2, ground truth
[{1,2,3}, {4,5}] and hit chunks [1,2,9,9,9] and [4,9,9,9,9] returns
(2/3 + 1/2)/2 = 7/12. -/
theorem Milvus.calculateRecall_example_7_12 :
    Milvus.calculateRecall Milvus.exampleHits [[1, 2, 3], [4, 5]] 5 2 = 7 / 12 := by
  norm_num [Milvus.calculateRecall, Milvus.recallLoop, Milvus.queryRecall, Milvus.exampleHits,
    List.countP_cons, List.take_succ_cons, List.drop_succ_cons]

namespace Milvus

/-- The per-query hit count never exceeds the length of the ground-truth
list when the ids in the chunk are pairwise distinct. -/
theorem countP_mem_le_length (chunk : List SearchResult) (g : List Int)
    (hnd : (chunk.map SearchResult.id).Nodup) :
    (chunk.countP fun h => decide (h.id ∈ g)) ≤ g.length := by
  rw [List.countP_eq_length_filter]
  have hsl : ((chunk.filter fun h => decide (h.id ∈ g)).map SearchResult.id).Sublist
      (chunk.map SearchResult.id) := (List.filter_sublist _).map _
  have hnd2 := hnd.sublist hsl
  have hsub : ∀ x ∈ (chunk.filter fun h => decide (h.id ∈ g)).map SearchResult.id, x ∈ g := by
    intro x hx
    simp only [List.mem_map, List.mem_filter] at hx
    obtain ⟨h, ⟨_, hm⟩, rfl⟩ := hx
    exact of_decide_eq_true hm
  calc (chunk.filter fun h => decide (h.id ∈ g)).length
      = ((chunk.filter fun h => decide (h.id ∈ g)).map SearchResult.id).length := by simp
    _ ≤ g.length := (hnd2.subperm hsub).length_le

/-- Per-query recall is nonnegative. -/
theorem queryRecall_nonneg (chunk : List SearchResult) (g : List Int) :
    0 ≤ queryRecall chunk g := by
  unfold queryRecall
  positivity

/-- Per-query recall is at most one when the chunk ids are distinct and
the ground-truth list is non-empty. -/
theorem queryRecall_le_one (chunk : List SearchResult) (g : List Int) (hg : g ≠ [])
    (hnd : (chunk.map SearchResult.id).Nodup) :
    queryRecall chunk g ≤ 1 := by
  unfold queryRecall
  have hglen : 0 < ((g.length : Nat) : ℚ) := by
    have : 0 < g.length := List.length_pos.mpr hg
    exact_mod_cast this
  rw [div_le_one hglen]
  exact_mod_cast countP_mem_le_length chunk g hnd

/-- The recall sum accumulated by the main loop is nonnegative, for
every input whatsoever. -/
theorem recallLoop_nonneg (results : List SearchResult) (k : Nat)
    (gts : List (List Int)) : ∀ idx : Nat, 0 ≤ (recallLoop results k gts idx).1 := by
  induction gts with
  | nil => intro idx; simp [recallLoop]
  | cons g rest ih =>
    intro idx
    by_cases hg : g.isEmpty
    · simpa [recallLoop, hg] using ih idx
    · have h0 := queryRecall_nonneg ((results.drop idx).take k) g
      have ihr := ih (idx + k)
      simp only [recallLoop, hg, Bool.false_eq_true, if_false]
      linarith

/-- The recall sum accumulated by the main loop is nonnegative and at
most the number of valid queries, when the hit ids are distinct. -/
theorem recallLoop_bounds (results : List SearchResult) (k : Nat)
    (hnd : (results.map SearchResult.id).Nodup) (gts : List (List Int)) :
    ∀ idx : Nat,
      0 ≤ (recallLoop results k gts idx).1 ∧
      (recallLoop results k gts idx).1 ≤ (((recallLoop results k gts idx).2 : Nat) : ℚ) := by
  induction gts with
  | nil => intro idx; simp [recallLoop]
  | cons g rest ih =>
    intro idx
    by_cases hg : g.isEmpty
    · simpa [recallLoop, hg] using ih idx
    · have hgne : g ≠ [] := by simpa [List.isEmpty_iff] using hg
      have hchunk : (((results.drop idx).take k).map SearchResult.id).Nodup :=
        hnd.sublist (((List.take_sublist _ _).trans (List.drop_sublist _ _)).map _)
      have h0 := queryRecall_nonneg ((results.drop idx).take k) g
      have h1 := queryRecall_le_one ((results.drop idx).take k) g hgne hchunk
      have ihr := ih (idx + k)
      simp only [recallLoop, hg, Bool.false_eq_true, if_false]
      refine ⟨by linarith [ihr.1], ?_⟩
      push_cast
      push_cast at ihr
      linarith [ihr.2]

end Milvus

/-- Claim C2 (amended): calculateRecall is nonnegative for every input;
and when the hit ids are pairwise distinct — in particular within each
query chunk — it lies in the closed interval [0, 1]; without
distinctness the value can exceed 1. -/
theorem Milvus.calculateRecall_bounds_of_nodup (results : List Milvus.SearchResult)
    (groundTruth : List (List Int)) (topK numQueries : Nat) :
    0 ≤ Milvus.calculateRecall results groundTruth topK numQueries ∧
    ((results.map Milvus.SearchResult.id).Nodup →
      Milvus.calculateRecall results groundTruth topK numQueries ≤ 1) := by
  constructor
  · unfold Milvus.calculateRecall
    split
    · norm_num
    · split
      · norm_num
      · exact div_nonneg
          (Milvus.recallLoop_nonneg results topK (groundTruth.take numQueries) 0)
          (by positivity)
  · intro hnd
    unfold Milvus.calculateRecall
    split
    · norm_num
    · have hb := Milvus.recallLoop_bounds results topK hnd (groundTruth.take numQueries) 0
      by_cases hv : (Milvus.recallLoop results topK (groundTruth.take numQueries) 0).2 = 0
      · simp [hv]
      · have hvpos : (0 : ℚ) <
            (((Milvus.recallLoop results topK (groundTruth.take numQueries) 0).2 : Nat) : ℚ) := by
          exact_mod_cast Nat.pos_of_ne_zero hv
        rw [if_neg hv, div_le_one hvpos]
        exact hb.2

/-- Witness for claim C2: the bound theorem applied at a concrete
duplicate-free input, discharging the distinctness hypothesis there. -/
theorem Milvus.calculateRecall_bounds_of_nodup_wit :
    (Milvus.twoHits.map Milvus.SearchResult.id).Nodup ∧
    (0 ≤ Milvus.calculateRecall Milvus.twoHits [[1]] 2 1 ∧
     Milvus.calculateRecall Milvus.twoHits [[1]] 2 1 ≤ 1) :=
  ⟨by decide,
   (Milvus.calculateRecall_bounds_of_nodup Milvus.twoHits [[1]] 2 1).1,
   (Milvus.calculateRecall_bounds_of_nodup Milvus.twoHits [[1]] 2 1).2 (by decide)⟩

/-- Counterexample for claim C2 as stated: with a duplicated id inside
one query chunk, calculateRecall returns 2, which is outside [0, 1]. -/
theorem Milvus.calculateRecall_gt_one_cex :
    Milvus.calculateRecall Milvus.dupHits [[1]] 2 1 = 2 := by
  norm_num [Milvus.calculateRecall, Milvus.recallLoop, Milvus.queryRecall, Milvus.dupHits,
    List.countP_cons]

/-- Claim C1 (amended): with groundTruth = [[], [1]] and two queries, the
first query is excluded, but since a skipped query does not advance the
running result index, the overall recall equals the recall of the second
query computed over the FIRST chunk of k hits (those starting at index
0), not the chunk starting at index k. -/
theorem Milvus.recall_emptyGroundTruth_usesFirstChunk
    (hits : List Milvus.SearchResult) (k : Nat) (hk : 0 < k) :
    Milvus.calculateRecall hits [[], [1]] k 2 =
      Milvus.queryRecall (hits.take k) [1] := by
  rcases hits with _ | ⟨h, t⟩
  · simp [Milvus.calculateRecall, Milvus.queryRecall]
  · simp [Milvus.calculateRecall, Milvus.recallLoop]

/-- Witness for claim C1: the amended theorem applied at a concrete input. -/
theorem Milvus.recall_emptyGroundTruth_usesFirstChunk_wit :
    0 < 1 ∧
    Milvus.calculateRecall Milvus.twoHits [[], [1]] 1 2 =
      Milvus.queryRecall (Milvus.twoHits.take 1) [1] :=
  ⟨Nat.one_pos, Milvus.recall_emptyGroundTruth_usesFirstChunk Milvus.twoHits 1 Nat.one_pos⟩

/-- Counterexample for claim C1 as stated: with hits having ids [1, 2],
k = 1 and groundTruth = [[], [1]], calculateRecall returns 1, while the
recall of the second query over its own fixed-stride chunk (the chunk
starting at index k = 1) is 0, so the two differ. -/
theorem Milvus.recall_emptyGroundTruth_secondChunk_cex :
    Milvus.calculateRecall Milvus.twoHits [[], [1]] 1 2 = 1 ∧
    Milvus.queryRecall ((Milvus.twoHits.drop 1).take 1) [1] = 0 := by
  constructor <;>
    norm_num [Milvus.calculateRecall, Milvus.recallLoop, Milvus.queryRecall, Milvus.twoHits,
      List.countP_cons]

/-- Lemma: the float64 projection is a retraction of the numeric
injection on lists. -/
theorem Milvus.map_asNum_num (xs : List ℚ) :
    List.map (Milvus.AnyValue.asNum ∘ Milvus.AnyValue.num) xs = xs := by
  induction xs with
  | nil => rfl
  | cons a t ih => simp [Milvus.AnyValue.asNum, ih, Function.comp]

/-- Claim C3 (amended): encoding a vector field sets the dimension to
the length of the first inner sequence and passes every row through
unchanged, performing no consistency check and raising no error; hence
the rows of the resulting column all match its dimension exactly when
the input rows already all share the length of the first row. -/
theorem Milvus.encodeField_vector_dim_no_check (name : String) (r : List ℚ)
    (rs : List (List ℚ)) :
    Milvus.encodeField name (.floatVectors (r :: rs)) =
      some ⟨name, .floatVectorCol r.length (r :: rs)⟩ ∧
    ((Milvus.ColumnData.floatVectorCol r.length (r :: rs)).vectorDimsConsistent ↔
      ∀ x ∈ rs, x.length = r.length) := by
  refine ⟨rfl, ?_⟩
  simp [Milvus.ColumnData.vectorDimsConsistent]

/-- Counterexample for claim C3 as stated: the rows [[1,2],[3]] have
inconsistent inner lengths, yet encoding succeeds (no failure of any
kind) and the produced column declares dimension 2 while containing a
row of length 1. -/
theorem Milvus.encodeField_vector_mismatch_cex :
    Milvus.encodeField "v" (.floatVectors [[1, 2], [3]]) =
      some ⟨"v", .floatVectorCol 2 [[1, 2], [3]]⟩ ∧
    ¬ (Milvus.ColumnData.floatVectorCol 2 [[(1 : ℚ), 2], [3]]).vectorDimsConsistent := by
  refine ⟨rfl, fun h => ?_⟩
  have := h [3] (by simp)
  simp at this

/-- Claim C4: with a non-empty column set of row count N, submission
against a store acknowledging exactly N rows returns the synthetic ids
0..N-1, and a store acknowledging M different from N makes the call fail
with the count-mismatch error. -/
theorem Milvus.insertSubmit_ids_and_mismatch (columns : List Milvus.Column)
    (N : Nat) (M : Int) (d : ℚ) (hne : columns ≠ [])
    (hN : Milvus.rowCount columns = N) :
    (Milvus.insertSubmit columns (.ok (N : Int)) d).1 =
      .ok ((List.range N).map fun i => (i : Int)) ∧
    (M ≠ (N : Int) →
      (Milvus.insertSubmit columns (.ok M) d).1 =
        .error (.countMismatch (N : Int) M)) := by
  subst hN
  refine ⟨?_, fun hM => ?_⟩
  · simp [Milvus.insertSubmit, hne]
  · simp [Milvus.insertSubmit, hne, hM]

/-- Witness for claim C4: the theorem applied to a single two-row
column with a store acknowledging 2 and then 3. -/
theorem Milvus.insertSubmit_ids_and_mismatch_wit :
    Milvus.twoRowColumns ≠ [] ∧ Milvus.rowCount Milvus.twoRowColumns = 2 ∧
    ((Milvus.insertSubmit Milvus.twoRowColumns (.ok ((2 : Nat) : Int)) 0).1 =
      .ok ((List.range 2).map fun i => (i : Int)) ∧
    ((3 : Int) ≠ ((2 : Nat) : Int) →
      (Milvus.insertSubmit Milvus.twoRowColumns (.ok 3) 0).1 =
        .error (.countMismatch ((2 : Nat) : Int) 3))) :=
  ⟨by decide, by decide,
   Milvus.insertSubmit_ids_and_mismatch Milvus.twoRowColumns 2 3 0 (by decide) (by decide)⟩

/-- Claim C5 (amended): a store-level Insert failure is recorded with
error-tagged samples only, and an empty column set fails with no samples
at all; but a count-mismatch failure is recorded with success-tagged
samples only, because the metrics are emitted before the insert-count
check runs. -/
theorem Milvus.insertSubmit_metrics_status (columns : List Milvus.Column)
    (e : String) (M : Int) (d : ℚ) (hne : columns ≠ []) :
    ((Milvus.insertSubmit columns (.error e) d).1 = .error (.storeError e) ∧
      (Milvus.insertSubmit columns (.error e) d).2 ≠ [] ∧
      ∀ s ∈ (Milvus.insertSubmit columns (.error e) d).2, s.status = "error") ∧
    (M ≠ ((Milvus.rowCount columns : Nat) : Int) →
      (Milvus.insertSubmit columns (.ok M) d).1 =
        .error (.countMismatch ((Milvus.rowCount columns : Nat) : Int) M) ∧
      ∀ s ∈ (Milvus.insertSubmit columns (.ok M) d).2, s.status = "success") ∧
    Milvus.insertSubmit [] (.error e) d =
      (.error .noValidColumns, ([] : List Milvus.MetricSample)) := by
  refine ⟨?_, fun hM => ?_, ?_⟩
  · refine ⟨by simp [Milvus.insertSubmit, hne], by simp [Milvus.insertSubmit, hne], ?_⟩
    intro s hs
    simp [Milvus.insertSubmit, hne] at hs
    rcases hs with h | h <;> simp [h]
  · refine ⟨by simp [Milvus.insertSubmit, hne, hM], ?_⟩
    intro s hs
    simp [Milvus.insertSubmit, hne, hM] at hs
    rcases hs with h | h | h | h <;> simp [h]
  · simp [Milvus.insertSubmit]

/-- Witness for claim C5: the amended theorem applied to a two-row
column set, an opaque store error, and a mismatching acknowledged count. -/
theorem Milvus.insertSubmit_metrics_status_wit :
    Milvus.twoRowColumns ≠ [] ∧
    (((Milvus.insertSubmit Milvus.twoRowColumns (.error "boom") 0).1 =
        .error (.storeError "boom") ∧
      (Milvus.insertSubmit Milvus.twoRowColumns (.error "boom") 0).2 ≠ [] ∧
      ∀ s ∈ (Milvus.insertSubmit Milvus.twoRowColumns (.error "boom") 0).2,
        s.status = "error") ∧
    ((3 : Int) ≠ ((Milvus.rowCount Milvus.twoRowColumns : Nat) : Int) →
      (Milvus.insertSubmit Milvus.twoRowColumns (.ok 3) 0).1 =
        .error (.countMismatch ((Milvus.rowCount Milvus.twoRowColumns : Nat) : Int) 3) ∧
      ∀ s ∈ (Milvus.insertSubmit Milvus.twoRowColumns (.ok 3) 0).2,
        s.status = "success") ∧
    Milvus.insertSubmit [] (.error "boom") 0 =
      (.error .noValidColumns, ([] : List Milvus.MetricSample))) :=
  ⟨by decide, Milvus.insertSubmit_metrics_status Milvus.twoRowColumns "boom" 3 0 (by decide)⟩

/-- Counterexample for claim C5 as stated: a count-mismatch failure
(two-row columns, store acknowledging 3) returns an error, yet every
emitted sample is success-tagged, a success-tagged request sample is
among them, and no error-tagged sample exists. -/
theorem Milvus.insertSubmit_countMismatch_success_metrics_cex :
    (Milvus.insertSubmit Milvus.twoRowColumns (.ok 3) 0).1 =
      .error (.countMismatch 2 3) ∧
    (∀ s ∈ (Milvus.insertSubmit Milvus.twoRowColumns (.ok 3) 0).2,
      s.status = "success") ∧
    (∃ s ∈ (Milvus.insertSubmit Milvus.twoRowColumns (.ok 3) 0).2,
      s.metric = "milvus_reqs" ∧ s.status = "success") ∧
    ¬ ∃ s ∈ (Milvus.insertSubmit Milvus.twoRowColumns (.ok 3) 0).2,
      s.status = "error" := by
  refine ⟨rfl, by decide, by decide, by decide⟩

/-- Claim C6 (amended): an empty generic sequence and an empty
float-vector sequence are skipped and contribute no column, but an empty
typed sequence (int64, string, ...) is not skipped and contributes a
zero-length column; a record in which every field is an empty generic
sequence yields zero columns and fails with the no-valid-columns
validation error. -/
theorem Milvus.encodeField_empty_skip_rules (name : String) (names : List String) :
    Milvus.encodeField name (.anys []) = none ∧
    Milvus.encodeField name (.floatVectors []) = none ∧
    Milvus.encodeField name (.int64s []) = some ⟨name, .int64Col []⟩ ∧
    Milvus.encodeField name (.strings []) = some ⟨name, .varcharCol []⟩ ∧
    Milvus.encodeRecord (names.map fun n => (n, Milvus.FieldValue.anys [])) =
      .error .noValidColumns := by
  refine ⟨rfl, rfl, rfl, rfl, ?_⟩
  simp [Milvus.encodeRecord, Milvus.encodeField, List.filterMap_map, Function.comp]

/-- Counterexample for claim C6 as stated: a record whose only field is
an empty int64 sequence is not skipped — it yields one zero-length
column and encoding succeeds instead of failing with the validation
error. -/
theorem Milvus.encodeRecord_emptyInt64_cex :
    Milvus.encodeRecord [("a", Milvus.FieldValue.int64s [])] =
      .ok [⟨"a", .int64Col []⟩] ∧
    Milvus.encodeRecord [("a", Milvus.FieldValue.int64s [])] ≠
      .error .noValidColumns := by
  refine ⟨rfl, by simp [Milvus.encodeRecord, Milvus.encodeField]⟩

/-- Claim C7: a loosely typed numeric sequence is encoded as a
double-precision column exactly when the field is literally named
rating, and as a single-precision column for every other field name; no
schema information enters the decision. -/
theorem Milvus.encodeField_numeric_rating_double (name : String) (x : ℚ) (xs : List ℚ) :
    (name = "rating" →
      Milvus.encodeField name (.anys ((x :: xs).map Milvus.AnyValue.num)) =
        some ⟨name, .doubleCol (x :: xs)⟩) ∧
    (name ≠ "rating" →
      Milvus.encodeField name (.anys ((x :: xs).map Milvus.AnyValue.num)) =
        some ⟨name, .floatCol (x :: xs)⟩) := by
  constructor
  · intro h
    subst h
    simp [Milvus.encodeField, Milvus.map_asNum_num, Milvus.AnyValue.asNum]
  · intro h
    simp [Milvus.encodeField, h, Milvus.map_asNum_num, Milvus.AnyValue.asNum]

/-- Witness for claim C7: the theorem applied at the field names rating
and price with the one-element numeric sequence [1]. -/
theorem Milvus.encodeField_numeric_rating_double_wit :
    Milvus.encodeField "rating" (.anys (((1 : ℚ) :: []).map Milvus.AnyValue.num)) =
      some ⟨"rating", .doubleCol ((1 : ℚ) :: [])⟩ ∧
    Milvus.encodeField "price" (.anys (((1 : ℚ) :: []).map Milvus.AnyValue.num)) =
      some ⟨"price", .floatCol ((1 : ℚ) :: [])⟩ :=
  ⟨(Milvus.encodeField_numeric_rating_double "rating" 1 []).1 rfl,
   (Milvus.encodeField_numeric_rating_double "price" 1 []).2 (by decide)⟩

/-- The decoded hit list of one query has exactly resultCount entries. -/
theorem Milvus.decodeQuery_length (outputFields : List String) (r : Milvus.RawResult) :
    (Milvus.decodeQuery outputFields r).length = r.resultCount := by
  simp [Milvus.decodeQuery]

/-- Claim C9: the flat decoded output places hit i of query q at flat
position (sum of the hit counts of the earlier queries) + i — so the
inter-query submission order and the intra-query rank order are both
preserved — and the fields mapping of every decoded hit of a query never
contains the id field and never contains a name absent from that query
raw columns. -/
theorem Milvus.decodeResults_fields_and_order (outputFields : List String)
    (rs : List Milvus.RawResult) (q i : Nat) (hq : q < rs.length)
    (hi : i < rs[q].resultCount) :
    (Milvus.decodeResults outputFields rs)[
        (((rs.take q).map Milvus.RawResult.resultCount).sum + i)]? =
      some (Milvus.decodeHit outputFields rs[q] i) ∧
    ∀ r ∈ rs, ∀ j, ∀ p ∈ (Milvus.decodeHit outputFields r j).fields,
      p.1 ≠ "id" ∧ ∃ c ∈ r.columns, c.name = p.1 := by
  constructor
  · induction rs generalizing q with
    | nil => exact absurd hq (Nat.not_lt_zero q)
    | cons r rest ih =>
      cases q with
      | zero =>
        simp only [Milvus.decodeResults, List.flatMap_cons, List.take_zero, List.map_nil,
          List.sum_nil, Nat.zero_add]
        rw [List.getElem?_append_left (by simpa [Milvus.decodeQuery_length] using hi)]
        simp only [Milvus.decodeQuery, List.getElem?_map, List.getElem_cons_zero,
          Option.map_eq_some']
        exact ⟨i, List.getElem?_range (by simpa using hi), rfl⟩
      | succ q =>
        have hq2 : q < rest.length := by simpa using hq
        have hi2 : i < rest[q].resultCount := by simpa using hi
        have hlen : (Milvus.decodeQuery outputFields r).length = r.resultCount :=
          Milvus.decodeQuery_length outputFields r
        simp only [Milvus.decodeResults, List.flatMap_cons, List.take_succ_cons,
          List.map_cons, List.sum_cons]
        rw [Nat.add_assoc, List.getElem?_append_right (by omega), hlen]
        have := ih q hq2 hi2
        simpa [Milvus.decodeResults, Nat.add_sub_cancel_left] using this
  · intro r hr j p hp
    simp only [Milvus.decodeHit, List.mem_filterMap] at hp
    obtain ⟨f, hf, hpe⟩ := hp
    by_cases hid : f = "id"
    · simp [hid] at hpe
    · rw [if_neg hid] at hpe
      cases hcol : r.getColumn f with
      | none => rw [hcol] at hpe; simp at hpe
      | some col =>
        rw [hcol] at hpe
        obtain ⟨v, hv, hpv⟩ := Option.map_eq_some'.mp hpe
        have hcmem : col ∈ r.columns := List.mem_of_find?_eq_some hcol
        have hcname : col.name = f := by
          have := List.find?_some hcol
          simpa using this
        subst hpv
        exact ⟨hid, col, hcmem, hcname⟩

/-- Witness for claim C9: the theorem applied to one raw result with one
hit and the output field title. -/
theorem Milvus.decodeResults_fields_and_order_wit :
    (0 : Nat) < [Milvus.exampleRaw].length ∧
    (0 : Nat) < ([Milvus.exampleRaw])[0].resultCount ∧
    ((Milvus.decodeResults ["title"] [Milvus.exampleRaw])[
        ((([Milvus.exampleRaw].take 0).map Milvus.RawResult.resultCount).sum + 0)]? =
      some (Milvus.decodeHit ["title"] ([Milvus.exampleRaw])[0] 0) ∧
    ∀ r ∈ [Milvus.exampleRaw], ∀ j, ∀ p ∈ (Milvus.decodeHit ["title"] r j).fields,
      p.1 ≠ "id" ∧ ∃ c ∈ r.columns, c.name = p.1) :=
  ⟨by decide, by decide,
   Milvus.decodeResults_fields_and_order ["title"] [Milvus.exampleRaw] 0 0
     (by decide) (by decide)⟩

/-- Claim C10: when the id lookup for rank i fails, the hit is neither
dropped nor an error: it still appears at position i of its query
decoded list, with id 0, with its score read from the scores column, and
with its fields decoded as usual. -/
theorem Milvus.decodeHit_idError_included (outputFields : List String)
    (r : Milvus.RawResult) (i : Nat) (hi : i < r.resultCount)
    (hid : r.ids.getD i none = none) :
    (Milvus.decodeQuery outputFields r)[i]? =
      some (Milvus.decodeHit outputFields r i) ∧
    (Milvus.decodeHit outputFields r i).id = 0 ∧
    (Milvus.decodeHit outputFields r i).score = r.scores.getD i 0 := by
  refine ⟨?_, ?_, rfl⟩
  · simp [Milvus.decodeQuery, List.getElem?_map, List.getElem?_range, hi]
  · show (r.ids.getD i none).getD 0 = 0
    rw [hid]
    simp

/-- Witness for claim C10: the theorem applied to a raw result whose
only id entry fails to resolve. -/
theorem Milvus.decodeHit_idError_included_wit :
    (0 : Nat) < Milvus.idErrRaw.resultCount ∧
    Milvus.idErrRaw.ids.getD 0 none = none ∧
    ((Milvus.decodeQuery ["title"] Milvus.idErrRaw)[(0 : Nat)]? =
      some (Milvus.decodeHit ["title"] Milvus.idErrRaw 0) ∧
    (Milvus.decodeHit ["title"] Milvus.idErrRaw 0).id = 0 ∧
    (Milvus.decodeHit ["title"] Milvus.idErrRaw 0).score =
      Milvus.idErrRaw.scores.getD 0 0) :=
  ⟨by decide, by decide,
   Milvus.decodeHit_idError_included ["title"] Milvus.idErrRaw 0 (by decide) (by decide)⟩
